import Mathlib

/-!
Shallow embedding of the emu16 virtual machine (Go sources: `main.go` and the
`emu` package's processor file) together with theorems checking the
natural-language specification against it.

Machine integers are embedded as `Nat` with explicit reductions modulo `2^8`
and `2^16` exactly where the Go code's `uint8`/`uint16` types truncate.
Go runtime panics (slice index out of range) are modelled as an explicit
`panic` result constructor, distinct from a returned `error`.
-/

set_option maxHeartbeats 1000000

/-- Result of a Go call that returns `(value, error)`: `ok v` for a nil error,
`err` for a returned non-nil error, `panic` for a runtime panic
(out-of-range slice index). -/
inductive GoRes (α : Type) where
  | ok : α → GoRes α
  | err : GoRes α
  | panic : GoRes α
deriving DecidableEq, Repr

/-- Result of a Go call that mutates memory and returns `error`.  `panic`
carries the memory as it is at the moment the panic fires (writes performed
before the faulting index are visible). -/
inductive SaveRes (μ : Type) where
  | ok : μ → SaveRes μ
  | err : SaveRes μ
  | panic : μ → SaveRes μ
deriving DecidableEq, Repr

/-- `Mem` from `main.go`: `bank []uint8` and `bankSize uint16`.
`newBanks` establishes `bank.length = bankSize`. -/
structure Mem where
  bank : List Nat
  bankSize : Nat
deriving DecidableEq, Repr

/-- `Mem.newBanks`: `bank = make([]uint8, length)`, `bankSize = length`. -/
def Mem.newBanks (length : Nat) : Mem :=
  ⟨List.replicate length 0, length⟩

/-- `Mem.Load8`: guard `addr+offset > m.bankSize` (uint16 sum) returns the
segfault error; otherwise Go evaluates `m.bank[addr+offset]`, which panics
when the index is not below `len(m.bank)`. -/
def Mem.Load8 (m : Mem) (addr offset : Nat) : GoRes Nat :=
  let i := (addr + offset) % 65536
  if i > m.bankSize then .err
  else if h : i < m.bank.length then .ok (m.bank.get ⟨i, h⟩ % 256)
  else .panic

/-- `Mem.Load16`: guard `addr+offset+1 > m.bankSize` (uint16 sum), then
`uint16(m.bank[addr+offset])<<8 | uint16(m.bank[addr+offset+1])`. -/
def Mem.Load16 (m : Mem) (addr offset : Nat) : GoRes Nat :=
  let i := (addr + offset) % 65536
  let j := (addr + offset + 1) % 65536
  if j > m.bankSize then .err
  else if h : i < m.bank.length then
    if h2 : j < m.bank.length then
      .ok ((m.bank.get ⟨i, h⟩ % 256) <<< 8 ||| (m.bank.get ⟨j, h2⟩ % 256))
    else .panic
  else .panic

/-- `Mem.Save8`: guard `addr+offset > m.bankSize`, then
`m.bank[addr+offset] = data`. -/
def Mem.Save8 (m : Mem) (addr offset data : Nat) : SaveRes Mem :=
  let i := (addr + offset) % 65536
  if i > m.bankSize then .err
  else if i < m.bank.length then
    .ok { m with bank := m.bank.set i (data % 256) }
  else .panic m

/-- `Mem.Save16`: guard `addr+offset+1 > m.bankSize`, then
`m.bank[addr+offset] = uint8(data >> 8)` followed by
`m.bank[addr+offset+1] = uint8(data & 0xFF)`.  If the second index is out of
range the first write has already landed when the panic fires. -/
def Mem.Save16 (m : Mem) (addr offset data : Nat) : SaveRes Mem :=
  let i := (addr + offset) % 65536
  let j := (addr + offset + 1) % 65536
  if j > m.bankSize then .err
  else if i < m.bank.length then
    let m1 : Mem := { m with bank := m.bank.set i ((data >>> 8) % 256) }
    if j < m1.bank.length then
      .ok { m1 with bank := m1.bank.set j ((data &&& 0xFF) % 256) }
    else .panic m1
  else .panic m

/-- `Bootmedia` from `main.go`: offset, length, start and the data image. -/
structure Bootmedia where
  offset : Nat
  length : Nat
  start : Nat
  data : List Nat
deriving DecidableEq, Repr

/-- `Bootmedia.init`: stores the image and sets `length = uint16(len(data))`. -/
def Bootmedia.init (data : List Nat) (offset start : Nat) : Bootmedia :=
  ⟨offset, data.length % 65536, start, data⟩

/-- `Bootmedia.Load`: guard `addr > b.length` returns the error; otherwise Go
evaluates `b.data[addr]`, which panics when the index is not below
`len(b.data)`. -/
def Bootmedia.Load (b : Bootmedia) (addr : Nat) : GoRes Nat :=
  if addr > b.length then .err
  else if h : addr < b.data.length then .ok (b.data.get ⟨addr, h⟩ % 256)
  else .panic

/-- `Register` from the emu package: a High and a Low byte (`uint8`).
The fields are embedded as `Nat`; reads reduce them mod `2^8` exactly where
Go's `uint8` typing guarantees the range. -/
structure Register where
  High : Nat
  Low : Nat
deriving DecidableEq, Repr

/-- `Register.Put16`: `High = uint8(d >> 8)`, `Low = uint8(d & 0xFF)`. -/
def Register.Put16 (d : Nat) : Register :=
  ⟨(d >>> 8) % 256, (d &&& 0xFF) % 256⟩

/-- `Register.Get16`: `uint16(r.High)<<8 | uint16(r.Low)`. -/
def Register.Get16 (r : Register) : Nat :=
  (r.High % 256) <<< 8 ||| (r.Low % 256)

/-- The responses a `Bus` implementation (an interface in the emu package)
gives to the processor's three calls during one instruction. -/
structure BusIface where
  which : Except Unit Nat
  recv : Nat → Except Unit Nat
  send : Nat → Nat → Except Unit Unit

/-- Processor-visible machine state: the 16-entry register file
(`Processor.Register` in the source; register 15 is IP) and memory. -/
structure Machine where
  reg : Fin 16 → Register
  mem : Mem

/-- Outcome of the `switch opcode` body of `Processor.execute`: the state after
the selected case, the width the case leaves in `width`, and whether `err` is
non-nil — or a Go panic (register index `≥ 16` or a memory panic). -/
inductive SwitchRes where
  | cont : Machine → Nat → Bool → SwitchRes
  | panic : Machine → SwitchRes

/-- Outcome of `Processor.execute`: final state plus whether a non-nil error is
returned, or a panic. -/
inductive Exec where
  | ok : Machine → Bool → Exec
  | panic : Machine → Exec

def Exec.M : Exec → Machine
  | .ok M _ => M
  | .panic M => M

def Exec.errored : Exec → Bool
  | .ok _ e => e
  | .panic _ => false

def Exec.panicked : Exec → Bool
  | .ok _ _ => false
  | .panic _ => true

def SwitchRes.M : SwitchRes → Machine
  | .cont M _ _ => M
  | .panic M => M

def SwitchRes.w : SwitchRes → Nat
  | .cont _ w _ => w
  | .panic _ => 0

def SwitchRes.errFlag : SwitchRes → Bool
  | .cont _ _ e => e
  | .panic _ => false

def SwitchRes.isPanic : SwitchRes → Bool
  | .cont _ _ _ => false
  | .panic _ => true

/-- `opcode := uint8(inst >> 12)`. -/
def opcodeOf (inst : Nat) : Nat := (inst >>> 12) % 256

theorem and_f00_shr8_lt (inst : Nat) : (inst &&& 0xF00) >>> 8 < 16 := by
  have h1 : inst &&& 0xF00 ≤ 0xF00 := Nat.and_le_right
  have h2 : (inst &&& 0xF00) >>> 8 ≤ 0xF00 >>> 8 := by
    simpa [Nat.shiftRight_eq_div_pow] using Nat.div_le_div_right (c := 2 ^ 8) h1
  omega

theorem and_f0_shr4_lt (inst : Nat) : (inst &&& 0xF0) >>> 4 < 16 := by
  have h1 : inst &&& 0xF0 ≤ 0xF0 := Nat.and_le_right
  have h2 : (inst &&& 0xF0) >>> 4 ≤ 0xF0 >>> 4 := by
    simpa [Nat.shiftRight_eq_div_pow] using Nat.div_le_div_right (c := 2 ^ 4) h1
  omega

theorem and_f_lt (inst : Nat) : inst &&& 0xF < 16 :=
  Nat.lt_succ_of_le Nat.and_le_right

/-- `arg1 := uint8(inst & 0xF00 >> 8)` as a register index. -/
def arg1F (inst : Nat) : Fin 16 := ⟨(inst &&& 0xF00) >>> 8, and_f00_shr8_lt inst⟩

/-- `arg2 := uint8(inst & 0xF0 >> 4)` as a register index. -/
def arg2F (inst : Nat) : Fin 16 := ⟨(inst &&& 0xF0) >>> 4, and_f0_shr4_lt inst⟩

/-- `arg3 := uint8(inst & 0xF)` as a register index. -/
def arg3F (inst : Nat) : Fin 16 := ⟨inst &&& 0xF, and_f_lt inst⟩

/-- The central IP advance after the switch:
`p.Register[IP].Put16(p.Register[IP].Get16() + width)`. -/
def Machine.advanceIP (M : Machine) (width : Nat) : Machine :=
  { M with reg := Function.update M.reg 15 (Register.Put16 ((M.reg 15).Get16 + width)) }

def Machine.setReg (M : Machine) (i : Fin 16) (r : Register) : Machine :=
  { M with reg := Function.update M.reg i r }

/-- One Go assignment `p.Register[p.Register[a1].Low].Low = v`: the register
index is re-evaluated from the current state, and the write panics (`none`)
when that index is not below 16. -/
def Machine.setLowAt (M : Machine) (a1 : Fin 16) (v : Nat) : Option Machine :=
  if h : (M.reg a1).Low < 16 then
    some (M.setReg ⟨(M.reg a1).Low, h⟩ ⟨(M.reg ⟨(M.reg a1).Low, h⟩).High, v⟩)
  else none

/-- One Go assignment `p.Register[p.Register[a1].Low].High = v`, with the
index likewise re-evaluated from the current state. -/
def Machine.setHighAt (M : Machine) (a1 : Fin 16) (v : Nat) : Option Machine :=
  if h : (M.reg a1).Low < 16 then
    some (M.setReg ⟨(M.reg a1).Low, h⟩ ⟨v, (M.reg ⟨(M.reg a1).Low, h⟩).Low⟩)
  else none

/-- The `switch opcode` body of `Processor.execute`, case by case in source
order.  Each case yields the post-case state, the value of `width`, and
whether `err` is non-nil.  Register-file indexing through a `uint8` taken
from a register's Low byte panics when the index is not below 16.  The WBUS
no-data path runs Go's three statements in order — the multiple assignment
stores `Which`'s zero value into the Low byte at the pre-statement index, and
the two fix-up assignments each re-evaluate `p.Register[arg1].Low` afresh, so
a register whose Low byte names its own index sends the 0x0100 signal to
register 0 instead. -/
def Machine.execSwitch (bus : BusIface) (M : Machine) (inst : Nat) : SwitchRes :=
  if opcodeOf inst = 0 then -- LOAD
    if inst &&& 0xF > 0 then
      match M.mem.Load8 ((M.reg (arg2F inst)).Get16) 0 with
      | .ok v => .cont (M.setReg (arg1F inst) ⟨(M.reg (arg1F inst)).High, v⟩) 2 false
      | .err => .cont (M.setReg (arg1F inst) ⟨(M.reg (arg1F inst)).High, 0⟩) 2 true
      | .panic => .panic M
    else
      match M.mem.Load16 ((M.reg (arg2F inst)).Get16) 0 with
      | .ok d => .cont (M.setReg (arg1F inst) (Register.Put16 d)) 2 false
      | .err => .cont (M.setReg (arg1F inst) (Register.Put16 0)) 2 true
      | .panic => .panic M
  else if opcodeOf inst = 1 then -- STORE
    if inst &&& 0xF > 0 then
      match M.mem.Save8 ((M.reg (arg2F inst)).Get16) 0 ((M.reg (arg1F inst)).Low) with
      | .ok m2 => .cont ⟨M.reg, m2⟩ 2 false
      | .err => .cont M 2 true
      | .panic m2 => .panic ⟨M.reg, m2⟩
    else
      match M.mem.Save16 ((M.reg (arg2F inst)).Get16) 0 ((M.reg (arg1F inst)).Get16) with
      | .ok m2 => .cont ⟨M.reg, m2⟩ 2 false
      | .err => .cont M 2 true
      | .panic m2 => .panic ⟨M.reg, m2⟩
  else if opcodeOf inst = 2 then -- SET
    match M.mem.Load16 ((M.reg 15).Get16) 1 with
    | .ok d => .cont (M.setReg (arg1F inst) (Register.Put16 d)) 3 false
    | .err => .cont (M.setReg (arg1F inst) (Register.Put16 0)) 3 true
    | .panic => .panic M
  else if opcodeOf inst = 3 then -- WBUS
    if h : (M.reg (arg1F inst)).Low < 16 then
      match bus.which with
      | .ok a => .cont (M.setReg ⟨(M.reg (arg1F inst)).Low, h⟩
          ⟨(M.reg ⟨(M.reg (arg1F inst)).Low, h⟩).High, a % 256⟩) 1 false
      | .error _ =>
        match (M.setReg ⟨(M.reg (arg1F inst)).Low, h⟩
            ⟨(M.reg ⟨(M.reg (arg1F inst)).Low, h⟩).High, 0⟩).setLowAt (arg1F inst) 0 with
        | some M2 =>
          match M2.setHighAt (arg1F inst) 1 with
          | some M3 => .cont M3 1 false
          | none => .panic M2
        | none => .panic (M.setReg ⟨(M.reg (arg1F inst)).Low, h⟩
            ⟨(M.reg ⟨(M.reg (arg1F inst)).Low, h⟩).High, 0⟩)
    else .panic M
  else if opcodeOf inst = 4 then -- SBUS
    if h : (M.reg (arg1F inst)).Low < 16 then
      match bus.send ((M.reg (arg1F inst)).High % 256)
          ((M.reg ⟨(M.reg (arg1F inst)).Low, h⟩).Get16) with
      | .ok _ => .cont M 1 false
      | .error _ => .cont M 1 true
    else .panic M
  else if opcodeOf inst = 5 then -- RBUS
    if h : (M.reg (arg1F inst)).Low < 16 then
      match bus.recv ((M.reg (arg1F inst)).High % 256) with
      | .ok d => .cont (M.setReg ⟨(M.reg (arg1F inst)).Low, h⟩ (Register.Put16 (d % 65536))) 1 false
      | .error _ => .cont (M.setReg ⟨(M.reg (arg1F inst)).Low, h⟩ (Register.Put16 0)) 1 true
    else .panic M
  else if opcodeOf inst = 6 then -- LJUMP
    if (M.reg (arg1F inst)).Get16 < (M.reg (arg2F inst)).Get16 then
      .cont (M.setReg 15 (M.reg (arg3F inst))) 0 false
    else .cont M 2 false
  else if opcodeOf inst = 7 then -- EJUMP
    if (M.reg (arg1F inst)).Get16 = (M.reg (arg2F inst)).Get16 then
      .cont (M.setReg 15 (M.reg (arg3F inst))) 0 false
    else .cont M 2 false
  else if opcodeOf inst = 8 then -- ADD
    .cont (M.setReg (arg1F inst)
      (Register.Put16 (((M.reg (arg2F inst)).Get16 + (M.reg (arg3F inst)).Get16) % 65536))) 2 false
  else if opcodeOf inst = 9 then -- SUB
    .cont (M.setReg (arg1F inst)
      (Register.Put16 ((65536 + (M.reg (arg2F inst)).Get16 - (M.reg (arg3F inst)).Get16) % 65536))) 2 false
  else if opcodeOf inst = 10 then -- SHL
    .cont (M.setReg (arg1F inst)
      (Register.Put16 (((M.reg (arg2F inst)).Get16 <<< (M.reg (arg3F inst)).Get16) % 65536))) 2 false
  else if opcodeOf inst = 11 then -- SHR
    .cont (M.setReg (arg1F inst)
      (Register.Put16 ((M.reg (arg2F inst)).Get16 >>> (M.reg (arg3F inst)).Get16))) 2 false
  else if opcodeOf inst = 12 then -- AND
    .cont (M.setReg (arg1F inst)
      (Register.Put16 ((M.reg (arg2F inst)).Get16 &&& (M.reg (arg3F inst)).Get16))) 2 false
  else if opcodeOf inst = 13 then -- OR
    .cont (M.setReg (arg1F inst)
      (Register.Put16 ((M.reg (arg2F inst)).Get16 ||| (M.reg (arg3F inst)).Get16))) 2 false
  else if opcodeOf inst = 14 then -- NOT
    .cont (M.setReg (arg1F inst)
      (Register.Put16 ((M.reg (arg2F inst)).Get16 ^^^ 0xFFFF))) 2 false
  else if opcodeOf inst = 15 then -- XOR
    .cont (M.setReg (arg1F inst)
      (Register.Put16 ((M.reg (arg2F inst)).Get16 ^^^ (M.reg (arg3F inst)).Get16))) 2 false
  else
    .cont M 2 false

/-- Everything `Processor.execute` does after the instruction word is in hand:
the switch, then the central IP advance, then error wrapping (wrapping keeps
the error non-nil). -/
def Machine.execInst (bus : BusIface) (M : Machine) (inst : Nat) : Exec :=
  match M.execSwitch bus inst with
  | .cont M2 w e => .ok (M2.advanceIP w) e
  | .panic M2 => .panic M2

/-- `Processor.execute`: fetch `Load16(R[15].Get16(), 0)`; a fetch error
returns immediately (before the IP advance); otherwise run the decoded
instruction. -/
def Machine.execute (bus : BusIface) (M : Machine) : Exec :=
  match M.mem.Load16 ((M.reg 15).Get16) 0 with
  | .ok inst => M.execInst bus inst
  | .err => .ok M true
  | .panic => .panic M

theorem shl8_or_eq (h l : Nat) (hl : l < 256) : h <<< 8 ||| l = 256 * h + l := by
  have h2 : (2 : Nat) ^ 8 * h + l = 2 ^ 8 * h ||| l :=
    Nat.mul_add_lt_is_or (by norm_num [hl]) h
  calc h <<< 8 ||| l = 2 ^ 8 * h ||| l := by rw [Nat.shiftLeft_eq, Nat.mul_comm]
    _ = 2 ^ 8 * h + l := h2.symm
    _ = 256 * h + l := by norm_num

theorem and_255_eq (d : Nat) : d &&& 0xFF = d % 256 := by
  simpa using Nat.and_pow_two_sub_one_eq_mod d 8

theorem shr8_eq (d : Nat) : d >>> 8 = d / 256 := by
  rw [Nat.shiftRight_eq_div_pow]

theorem Register.get16_eq (r : Register) :
    r.Get16 = (r.High % 256) * 256 + r.Low % 256 := by
  unfold Register.Get16
  rw [shl8_or_eq _ _ (Nat.mod_lt _ (by norm_num))]
  ring

theorem Register.get16_lt (r : Register) : r.Get16 < 65536 := by
  rw [r.get16_eq]
  have h1 : r.High % 256 < 256 := Nat.mod_lt _ (by norm_num)
  have h2 : r.Low % 256 < 256 := Nat.mod_lt _ (by norm_num)
  omega

theorem Register.put16_eq (d : Nat) :
    Register.Put16 d = ⟨d / 256 % 256, d % 256⟩ := by
  unfold Register.Put16
  rw [and_255_eq, shr8_eq]
  congr 1
  omega

theorem Register.get16_put16 (d : Nat) :
    (Register.Put16 d).Get16 = d % 65536 := by
  rw [Register.put16_eq, Register.get16_eq]
  simp only []
  omega

theorem Register.put16_get16 (r : Register) (hH : r.High < 256) (hL : r.Low < 256) :
    Register.Put16 r.Get16 = r := by
  rw [Register.get16_eq, Register.put16_eq]
  cases r with
  | mk H L =>
    simp only at hH hL ⊢
    congr 1 <;> omega

theorem Machine.advanceIP_reg15 (M : Machine) (w : Nat) :
    (M.advanceIP w).reg 15 = Register.Put16 ((M.reg 15).Get16 + w) := by
  simp [Machine.advanceIP]

theorem Machine.advanceIP_reg_ne (M : Machine) (w : Nat) (i : Fin 16) (h : i ≠ 15) :
    (M.advanceIP w).reg i = M.reg i := by
  simp [Machine.advanceIP, Function.update_noteq h]

theorem Machine.setReg_same (M : Machine) (i : Fin 16) (r : Register) :
    (M.setReg i r).reg i = r := by
  simp [Machine.setReg]

theorem Machine.setReg_ne (M : Machine) (i : Fin 16) (r : Register) (j : Fin 16) (h : j ≠ i) :
    (M.setReg i r).reg j = M.reg j := by
  simp [Machine.setReg, Function.update_noteq h]

theorem Machine.setReg_mem (M : Machine) (i : Fin 16) (r : Register) :
    (M.setReg i r).mem = M.mem := rfl

theorem Machine.advanceIP_mem (M : Machine) (w : Nat) :
    (M.advanceIP w).mem = M.mem := rfl

/-- One bus channel from `main.go`: the `out` (cpu to peripheral) and `in`
(peripheral to cpu) queues.  The `in` field is named `inb` (`in` is reserved). -/
structure BusChannel where
  out : List Nat
  inb : List Nat
deriving DecidableEq, Repr

/-- `Bus` from `main.go`: the channel slice `ch` and the `wait` slice consulted
by `Which` (the interrupt channel field is irrelevant to these claims). -/
structure GoBus where
  ch : List BusChannel
  wait : List Nat
deriving DecidableEq, Repr

/-- `Bus.Which`: `if len(b.wait) > 0 { return b.wait[0], nil }` else the
No-data error. -/
def GoBus.Which (b : GoBus) : Except Unit Nat :=
  if h : 0 < b.wait.length then .ok (b.wait.get ⟨0, h⟩) else .error ()

/-- State transitions of the `main.go` bus: `newBus` appends a channel; a
successful `Send` enqueues on a channel's out queue; a `Recv` dequeues from a
channel's in queue; `arrive` models a peripheral putting data on a channel's
in queue.  (Failed `Send`/`Recv` calls return an error without touching the
state.)  None of these operations ever writes the `wait` slice — the source
contains no assignment to it. -/
inductive BusStep : GoBus → GoBus → Prop where
  | newBus (b : GoBus) : BusStep b ⟨b.ch ++ [⟨[], []⟩], b.wait⟩
  | send (b : GoBus) (addr data : Nat) (h : addr < b.ch.length)
      (hg : ¬ b.ch.length % 256 < addr) :
      BusStep b ⟨b.ch.set addr ⟨(b.ch.get ⟨addr, h⟩).out ++ [data],
        (b.ch.get ⟨addr, h⟩).inb⟩, b.wait⟩
  | recv (b : GoBus) (addr : Nat) (h : addr < b.ch.length)
      (hg : ¬ b.ch.length % 256 < addr) :
      BusStep b ⟨b.ch.set addr ⟨(b.ch.get ⟨addr, h⟩).out,
        (b.ch.get ⟨addr, h⟩).inb.tail⟩, b.wait⟩
  | arrive (b : GoBus) (addr data : Nat) (h : addr < b.ch.length) :
      BusStep b ⟨b.ch.set addr ⟨(b.ch.get ⟨addr, h⟩).out,
        (b.ch.get ⟨addr, h⟩).inb ++ [data]⟩, b.wait⟩

/-- Bus states reachable from the zero-value `Bus{}` through the operations
the repository performs. -/
inductive BusReachable : GoBus → Prop where
  | init : BusReachable ⟨[], []⟩
  | step (b b2 : GoBus) : BusReachable b → BusStep b b2 → BusReachable b2

/-- The responses the `main.go` bus gives the processor, as a `BusIface`.
`rv` stands for whatever word a blocking channel receive would eventually
deliver; `Send`/`Recv` error exactly when `uint8(len(b.ch)) < addr`. -/
def GoBus.toIface (b : GoBus) (rv : Nat → Nat) : BusIface where
  which := b.Which
  recv := fun addr => if b.ch.length % 256 < addr then .error () else .ok (rv addr)
  send := fun addr _ => if b.ch.length % 256 < addr then .error () else .ok ()

def busNone : BusIface where
  which := .error ()
  recv := fun _ => .error ()
  send := fun _ _ => .error ()

def busOkC2 : BusIface where
  which := .ok 2
  recv := fun _ => .error ()
  send := fun _ _ => .ok ()

def mC2 : Machine where
  reg := fun i => if i = 5 then ⟨0, 7⟩ else if i = 7 then ⟨5, 9⟩ else ⟨0, 0⟩
  mem := ⟨[], 0⟩

/-- Claim C1: the claim states that memory access fails (with a segfault
error) exactly when `base+offset ≥ S` (byte) or `base+offset+1 ≥ S` (word),
and that sums overflowing 0xFFFF fail rather than wrap.  The code diverges:
with `S = 16`, a byte access whose 16-bit sum equals `S` passes the `>` guard
and panics on the slice index instead of returning the error; a sum that
overflows past 0xFFFF wraps around and succeeds; a word store at sum `S-1`
writes its first byte and then panics. -/
theorem c1_bounds_check_eval :
    (Mem.newBanks 16).Load8 15 1 = .panic ∧
    (Mem.newBanks 16).Load8 0xFFFF 2 = .ok 0 ∧
    (Mem.newBanks 16).Load16 15 0 = .panic ∧
    (Mem.newBanks 16).Save16 15 0 0xABCD =
      .panic ⟨[0, 0, 0, 0, 0, 0, 0, 0, 0, 0, 0, 0, 0, 0, 0, 0xAB], 16⟩ := by decide

def mC3 : Machine where
  reg := fun i => if i = 0 then ⟨0, 15⟩ else if i = 1 then ⟨0xAB, 0xCD⟩ else ⟨0, 0⟩
  mem := ⟨[0x11, 0x00] ++ List.replicate 14 0, 16⟩

/-- Claim C3: the claim states that with `S = 16` a word STORE through
`R0 = 0x000F` returns a segfault error, IP advances, and no memory byte is
modified.  Evaluating the code on that exact program: the bounds guard
(`16 > 16`) passes, byte 15 is overwritten with the high byte of `R1`, and
the write to byte 16 panics — no error is returned and IP never advances. -/
theorem c3_store_segfault_eval :
    (mC3.execute busNone).panicked = true ∧
    (mC3.execute busNone).M.mem.bank =
      [0x11, 0, 0, 0, 0, 0, 0, 0, 0, 0, 0, 0, 0, 0, 0, 0xAB] ∧
    (mC3.execute busNone).M.reg 15 = ⟨0, 0⟩ ∧
    (mC3.execute busNone).M.reg 0 = ⟨0, 15⟩ := by decide

/-- Claim C2 counterexample: executing WBUS (opcode 3, instruction 0x3500)
with `R5.L = 7` and `R7 = 0x0509` against a bus whose `which()` succeeds
returning address 2: afterwards `R7.L = 2` but `R7.H` is still 5 — the claim
says the high byte becomes 0 on success, yet the code never writes it. -/
theorem c2_wbus_counterexample :
    ((mC2.execInst busOkC2 0x3500).M.reg 7).Low = 2 ∧
    ¬((mC2.execInst busOkC2 0x3500).M.reg 7).High = 0 ∧
    ((mC2.execInst busOkC2 0x3500).M.reg 7).High = 5 := by decide

theorem fin15_val : ((15 : Fin 16) : Nat) = 15 := rfl

theorem Machine.reg_setReg (M : Machine) (i j : Fin 16) (r : Register) :
    (M.setReg i r).reg j = if j = i then r else M.reg j := by
  by_cases h : j = i
  · subst h
    rw [if_pos rfl, Machine.setReg_same]
  · rw [if_neg h, Machine.setReg_ne _ _ _ _ h]

theorem Machine.setReg_idem (M : Machine) (i : Fin 16) (r s : Register) :
    (M.setReg i r).setReg i s = M.setReg i s := by
  simp [Machine.setReg, Function.update_idem]

/-- Reduction of the WBUS case when `Which` succeeds: the sole statement
writes the returned address into the Low byte of the register the pre-state
`R[arg1].L` names. -/
theorem execSwitch_wbus_ok (bus : BusIface) (M : Machine) (inst : Nat)
    (h3 : opcodeOf inst = 3) (hk : (M.reg (arg1F inst)).Low < 16)
    (a : Nat) (hw : bus.which = .ok a) :
    M.execSwitch bus inst = .cont (M.setReg ⟨(M.reg (arg1F inst)).Low, hk⟩
      ⟨(M.reg ⟨(M.reg (arg1F inst)).Low, hk⟩).High, a % 256⟩) 1 false := by
  simp only [Machine.execSwitch, h3, hw]
  norm_num [dif_pos hk]

/-- Reduction of the WBUS no-data path when the three statements keep hitting
the same register: the first write does not disturb `R[arg1].L` (either
`R[arg1].L` is not `arg1`'s own index, or it is already 0), so the re-evaluated
indices coincide with the pre-state one and the register ends as 0x0100. -/
theorem execSwitch_wbus_noData (bus : BusIface) (M : Machine) (inst : Nat)
    (h3 : opcodeOf inst = 3) (hk : (M.reg (arg1F inst)).Low < 16)
    (hna : (M.reg (arg1F inst)).Low ≠ ((arg1F inst) : Fin 16).val ∨
      (M.reg (arg1F inst)).Low = 0)
    (e : Unit) (hw : bus.which = .error e) :
    M.execSwitch bus inst =
      .cont (M.setReg ⟨(M.reg (arg1F inst)).Low, hk⟩ ⟨1, 0⟩) 1 false := by
  by_cases hal : (arg1F inst) = (⟨(M.reg (arg1F inst)).Low, hk⟩ : Fin 16)
  · have hz : (M.reg (arg1F inst)).Low = 0 := by
      rcases hna with hne | hz
      · exact absurd (congrArg Fin.val hal).symm hne
      · exact hz
    have ha0 : arg1F inst = (0 : Fin 16) := Fin.ext ((congrArg Fin.val hal).trans hz)
    have hz0 : (M.reg (0 : Fin 16)).Low = 0 := by
      rw [← ha0]
      exact hz
    simp only [Machine.execSwitch, h3, hw]
    norm_num [dif_pos hk]
    simp [ha0, hz0, Machine.setLowAt, Machine.setHighAt, Machine.reg_setReg,
      Machine.setReg_idem]
  · simp only [Machine.execSwitch, h3, hw]
    norm_num [dif_pos hk]
    simp [Machine.setLowAt, Machine.setHighAt, Machine.reg_setReg, Machine.setReg_idem,
      if_neg hal, dif_pos hk]

/-- Reduction of the WBUS no-data path in the aliasing case
`R[arg1].L = arg1 ≠ 0`: the multiple assignment zeroes `R[arg1].L` itself, so
the two fix-up statements re-evaluate the index to 0 and the 0x0100 signal
lands in register 0. -/
theorem execSwitch_wbus_noData_alias (bus : BusIface) (M : Machine) (inst : Nat)
    (h3 : opcodeOf inst = 3)
    (ha : (M.reg (arg1F inst)).Low = ((arg1F inst) : Fin 16).val)
    (h0 : (M.reg (arg1F inst)).Low ≠ 0)
    (e : Unit) (hw : bus.which = .error e) :
    M.execSwitch bus inst =
      .cont ((M.setReg (arg1F inst) ⟨(M.reg (arg1F inst)).High, 0⟩).setReg 0 ⟨1, 0⟩)
        1 false := by
  have hk : (M.reg (arg1F inst)).Low < 16 := by
    rw [ha]
    exact (arg1F inst).isLt
  have hkK : (⟨(M.reg (arg1F inst)).Low, hk⟩ : Fin 16) = arg1F inst := Fin.ext ha
  have ha1_0 : ¬((0 : Fin 16) = arg1F inst) := by
    intro hc
    apply h0
    rw [ha, ← hc]
    rfl
  have ha1_0s : ¬(arg1F inst = (0 : Fin 16)) := fun hc => ha1_0 hc.symm
  simp only [Machine.execSwitch, h3, hw]
  norm_num [dif_pos hk]
  rw [hkK]
  simp [Machine.setLowAt, Machine.setHighAt, Machine.reg_setReg, Machine.setReg_idem,
    ha1_0, ha1_0s]

/-- Claim C2 (amended): executing opcode 3 (WBUS) with `k = R[arg1].L`, for
`k` a register index other than IP.  If `which()` succeeds returning address
`a`, afterwards `R[k].L = a` while `R[k].H` keeps its previous value (it is
not cleared to 0).  If `which()` fails with no data, Go's three statements
each re-evaluate the index `R[arg1].L`: when `k` is not `arg1`'s own index
(or is 0), `R[k] = 0x0100` as read; but when `R[arg1].L = arg1 ≠ 0` the first
statement zeroes `R[arg1].L` itself, so `R[arg1]` keeps its high byte over a
zeroed low byte and the 0x0100 signal lands in register 0 instead.  In all
cases IP advances by 1 and no error or panic arises. -/
theorem c2_wbus_amended (bus : BusIface) (M : Machine) (inst : Nat)
    (h3 : opcodeOf inst = 3) (hk : (M.reg (arg1F inst)).Low < 16)
    (hk15 : (M.reg (arg1F inst)).Low ≠ 15) :
    (∀ a, bus.which = .ok a →
      (M.execInst bus inst).M.reg ⟨(M.reg (arg1F inst)).Low, hk⟩ =
        ⟨(M.reg ⟨(M.reg (arg1F inst)).Low, hk⟩).High, a % 256⟩) ∧
    (∀ e : Unit, bus.which = .error e →
      ((M.reg (arg1F inst)).Low ≠ ((arg1F inst) : Fin 16).val ∨
          (M.reg (arg1F inst)).Low = 0 →
        (M.execInst bus inst).M.reg ⟨(M.reg (arg1F inst)).Low, hk⟩ = ⟨1, 0⟩) ∧
      ((M.reg (arg1F inst)).Low = ((arg1F inst) : Fin 16).val →
        (M.reg (arg1F inst)).Low ≠ 0 →
        (M.execInst bus inst).M.reg (arg1F inst) = ⟨(M.reg (arg1F inst)).High, 0⟩ ∧
        (M.execInst bus inst).M.reg 0 = ⟨1, 0⟩)) ∧
    (M.execInst bus inst).M.reg 15 = Register.Put16 ((M.reg 15).Get16 + 1) ∧
    (M.execInst bus inst).panicked = false ∧
    (M.execInst bus inst).errored = false := by
  have hkf : (⟨(M.reg (arg1F inst)).Low, hk⟩ : Fin 16) ≠ 15 := by
    intro hc
    exact hk15 (by rw [← fin15_val, ← hc])
  cases hw : bus.which with
  | ok a =>
    have hexec : M.execInst bus inst = .ok ((M.setReg ⟨(M.reg (arg1F inst)).Low, hk⟩
        ⟨(M.reg ⟨(M.reg (arg1F inst)).Low, hk⟩).High, a % 256⟩).advanceIP 1) false := by
      simp only [Machine.execInst, execSwitch_wbus_ok bus M inst h3 hk a hw]
    refine ⟨?_, ?_, ?_, ?_, ?_⟩
    · intro a2 ha2
      injection ha2 with haa
      subst haa
      rw [hexec]
      simp only [Exec.M]
      rw [Machine.advanceIP_reg_ne _ _ _ hkf, Machine.setReg_same]
    · intro e he
      simp at he
    · rw [hexec]
      simp only [Exec.M]
      rw [Machine.advanceIP_reg15, Machine.setReg_ne _ _ _ _ (Ne.symm hkf)]
    · rw [hexec]
      rfl
    · rw [hexec]
      rfl
  | error e =>
    have hgen : ∃ X : Machine, M.execSwitch bus inst = .cont X 1 false ∧
        X.reg 15 = M.reg 15 := by
      by_cases hal : (M.reg (arg1F inst)).Low = ((arg1F inst) : Fin 16).val
      · by_cases h0 : (M.reg (arg1F inst)).Low = 0
        · exact ⟨_, execSwitch_wbus_noData bus M inst h3 hk (Or.inr h0) e hw,
            Machine.setReg_ne _ _ _ _ (Ne.symm hkf)⟩
        · refine ⟨_, execSwitch_wbus_noData_alias bus M inst h3 hal h0 e hw, ?_⟩
          have h15a1 : (15 : Fin 16) ≠ arg1F inst := by
            intro hc
            apply hk15
            rw [hal, ← hc]
            rfl
          rw [Machine.setReg_ne _ _ _ _ (by decide : (15 : Fin 16) ≠ 0),
            Machine.setReg_ne _ _ _ _ h15a1]
      · exact ⟨_, execSwitch_wbus_noData bus M inst h3 hk (Or.inl hal) e hw,
          Machine.setReg_ne _ _ _ _ (Ne.symm hkf)⟩
    obtain ⟨X, hX, hX15⟩ := hgen
    have hexec : M.execInst bus inst = .ok (X.advanceIP 1) false := by
      simp only [Machine.execInst, hX]
    refine ⟨?_, ?_, ?_, ?_, ?_⟩
    · intro a2 ha2
      simp at ha2
    · intro e2 he2
      constructor
      · intro hna
        have hexec2 : M.execInst bus inst =
            .ok ((M.setReg ⟨(M.reg (arg1F inst)).Low, hk⟩ ⟨1, 0⟩).advanceIP 1) false := by
          simp only [Machine.execInst, execSwitch_wbus_noData bus M inst h3 hk hna e hw]
        rw [hexec2]
        simp only [Exec.M]
        rw [Machine.advanceIP_reg_ne _ _ _ hkf, Machine.setReg_same]
      · intro ha h0
        have hexec2 : M.execInst bus inst =
            .ok (((M.setReg (arg1F inst) ⟨(M.reg (arg1F inst)).High, 0⟩).setReg 0
              ⟨1, 0⟩).advanceIP 1) false := by
          simp only [Machine.execInst,
            execSwitch_wbus_noData_alias bus M inst h3 ha h0 e hw]
        have ha1_15 : (arg1F inst) ≠ (15 : Fin 16) := by
          intro hc
          apply hk15
          rw [ha, hc]
          rfl
        have ha1_0 : (0 : Fin 16) ≠ arg1F inst := by
          intro hc
          apply h0
          rw [ha, ← hc]
          rfl
        constructor
        · rw [hexec2]
          simp only [Exec.M]
          rw [Machine.advanceIP_reg_ne _ _ _ ha1_15,
            Machine.setReg_ne _ _ _ _ (Ne.symm ha1_0), Machine.setReg_same]
        · rw [hexec2]
          simp only [Exec.M]
          rw [Machine.advanceIP_reg_ne _ _ _ (by decide : (0 : Fin 16) ≠ 15),
            Machine.setReg_same]
    · rw [hexec]
      simp only [Exec.M]
      rw [Machine.advanceIP_reg15, hX15]
    · rw [hexec]
      rfl
    · rw [hexec]
      rfl

def mC2alias : Machine where
  reg := fun i => if i = 5 then ⟨2, 5⟩ else ⟨0, 0⟩
  mem := ⟨[], 0⟩

/-- Claim C2 witness: the amended statement at concrete WBUS scenarios — the
success case of `c2_wbus_counterexample` (low byte receives the address, high
byte keeps 5, IP advances by 1), the no-data case at the same machine
(`R7 = 0x0100`), and the aliasing no-data case `R5 = 0x0205` (register 5
keeps its high byte over a zeroed low byte and register 0 gets 0x0100). -/
theorem c2_wbus_amended_witness :
    ((mC2.execInst busOkC2 0x3500).M.reg ⟨(mC2.reg (arg1F 0x3500)).Low, by decide⟩ =
      ⟨(mC2.reg ⟨(mC2.reg (arg1F 0x3500)).Low, by decide⟩).High, 2 % 256⟩ ∧
    (mC2.execInst busOkC2 0x3500).M.reg 15 =
      Register.Put16 ((mC2.reg 15).Get16 + 1)) ∧
    (mC2.execInst busNone 0x3500).M.reg ⟨(mC2.reg (arg1F 0x3500)).Low, by decide⟩ =
      ⟨1, 0⟩ ∧
    (mC2alias.execInst busNone 0x3500).M.reg (arg1F 0x3500) =
      ⟨(mC2alias.reg (arg1F 0x3500)).High, 0⟩ ∧
    (mC2alias.execInst busNone 0x3500).M.reg 0 = ⟨1, 0⟩ := by
  have h := c2_wbus_amended busOkC2 mC2 0x3500 (by decide) (by decide) (by decide)
  have h2 := c2_wbus_amended busNone mC2 0x3500 (by decide) (by decide) (by decide)
  have h3 := c2_wbus_amended busNone mC2alias 0x3500 (by decide) (by decide) (by decide)
  have h3a := (h3.2.1 () rfl).2 (by decide) (by decide)
  exact ⟨⟨h.1 2 rfl, h.2.2.1⟩, (h2.2.1 () rfl).1 (by decide), h3a.1, h3a.2⟩

def busB3 : GoBus := ⟨[⟨[], []⟩, ⟨[], []⟩, ⟨[], []⟩], []⟩

/-- Claim C9 counterexample: against the reachable bus state of the `main.go`
harness (three channels, no data), executing WBUS 0x3500 from a state with
`R5 = 0x0205` (so `R[arg1].L = arg1 = 5`) does NOT write 0x0100 into the data
register named by `R[arg1].L`: register 5 ends as 0x0200 and the 0x0100
signal lands in register 0. -/
theorem c9_wbus_alias_counterexample :
    BusReachable busB3 ∧
    (mC2alias.execInst (busB3.toIface fun _ => 0) 0x3500).M.reg 5 = ⟨2, 0⟩ ∧
    ¬(mC2alias.execInst (busB3.toIface fun _ => 0) 0x3500).M.reg 5 = ⟨1, 0⟩ ∧
    (mC2alias.execInst (busB3.toIface fun _ => 0) 0x3500).M.reg 0 = ⟨1, 0⟩ := by
  refine ⟨?_, by decide, by decide, by decide⟩
  have h1 : BusReachable ⟨[⟨[], []⟩], []⟩ :=
    BusReachable.step _ _ BusReachable.init (BusStep.newBus _)
  have h2 : BusReachable ⟨[⟨[], []⟩, ⟨[], []⟩], []⟩ :=
    BusReachable.step _ _ h1 (BusStep.newBus _)
  exact BusReachable.step _ _ h2 (BusStep.newBus _)

/-- Claim C9 (amended): in every bus state reachable through newBus, Send and
Recv (with peripherals free to queue inbound data), the wait slice consulted
by `Which` is empty, so `Which` always fails with the no-data error and the
success branch of WBUS is unreachable.  On the resulting no-data path, when
`R[arg1].L` is not `arg1`'s own index (or is 0), the WBUS case writes 0x0100
into the data register the pre-state `R[arg1].L` names; when
`R[arg1].L = arg1 ≠ 0`, the re-evaluated indices send the 0x0100 signal to
register 0 while `R[arg1]` keeps its high byte over a zeroed low byte. -/
theorem c9_wait_list_empty_amended :
    (∀ b : GoBus, BusReachable b → b.wait = [] ∧ b.Which = .error ()) ∧
    (∀ (b : GoBus) (rv : Nat → Nat) (M : Machine) (inst : Nat),
      BusReachable b → opcodeOf inst = 3 →
      ∀ hk : (M.reg (arg1F inst)).Low < 16,
        ((M.reg (arg1F inst)).Low ≠ ((arg1F inst) : Fin 16).val ∨
            (M.reg (arg1F inst)).Low = 0 →
          (M.execSwitch (b.toIface rv) inst).M.reg
            ⟨(M.reg (arg1F inst)).Low, hk⟩ = ⟨1, 0⟩) ∧
        ((M.reg (arg1F inst)).Low = ((arg1F inst) : Fin 16).val →
          (M.reg (arg1F inst)).Low ≠ 0 →
          (M.execSwitch (b.toIface rv) inst).M.reg (arg1F inst) =
            ⟨(M.reg (arg1F inst)).High, 0⟩ ∧
          (M.execSwitch (b.toIface rv) inst).M.reg 0 = ⟨1, 0⟩)) := by
  have hwait : ∀ b : GoBus, BusReachable b → b.wait = [] := by
    intro b hb
    induction hb with
    | init => rfl
    | step b b2 _ hstep ih =>
      cases hstep <;> simpa using ih
  have hwhich : ∀ b : GoBus, BusReachable b → b.Which = .error () := by
    intro b hb
    unfold GoBus.Which
    rw [dif_neg]
    rw [hwait b hb]
    simp
  refine ⟨fun b hb => ⟨hwait b hb, hwhich b hb⟩, ?_⟩
  intro b rv M inst hb h3 hk
  have hw : (b.toIface rv).which = .error () := hwhich b hb
  constructor
  · intro hna
    rw [execSwitch_wbus_noData (b.toIface rv) M inst h3 hk hna () hw]
    simp only [SwitchRes.M]
    exact Machine.setReg_same _ _ _
  · intro ha h0
    rw [execSwitch_wbus_noData_alias (b.toIface rv) M inst h3 ha h0 () hw]
    simp only [SwitchRes.M]
    have ha1_0 : (0 : Fin 16) ≠ arg1F inst := by
      intro hc
      apply h0
      rw [ha, ← hc]
      rfl
    constructor
    · rw [Machine.setReg_ne _ _ _ _ (Ne.symm ha1_0), Machine.setReg_same]
    · rw [Machine.setReg_same]

/-- Claim C9 witness: the bus state after the three `newBus` calls of
`main.go` is reachable and its `Which` fails; against it the WBUS instruction
0x3500 executed from `mC2` (no aliasing: `R5.L = 7 ≠ 5`) leaves 0x0100 in
register 7, and from `mC2alias` (aliasing: `R5.L = 5`) leaves `R5` with a
zeroed low byte and 0x0100 in register 0. -/
theorem c9_wait_list_empty_amended_witness :
    busB3.Which = .error () ∧
    (mC2.execSwitch (busB3.toIface fun _ => 0) 0x3500).M.reg
      ⟨(mC2.reg (arg1F 0x3500)).Low, by decide⟩ = ⟨1, 0⟩ ∧
    (mC2alias.execSwitch (busB3.toIface fun _ => 0) 0x3500).M.reg (arg1F 0x3500) =
      ⟨(mC2alias.reg (arg1F 0x3500)).High, 0⟩ ∧
    (mC2alias.execSwitch (busB3.toIface fun _ => 0) 0x3500).M.reg 0 = ⟨1, 0⟩ := by
  have hr : BusReachable busB3 := by
    have h1 : BusReachable ⟨[⟨[], []⟩], []⟩ :=
      BusReachable.step _ _ BusReachable.init (BusStep.newBus _)
    have h2 : BusReachable ⟨[⟨[], []⟩, ⟨[], []⟩], []⟩ :=
      BusReachable.step _ _ h1 (BusStep.newBus _)
    exact BusReachable.step _ _ h2 (BusStep.newBus _)
  have hali := (c9_wait_list_empty_amended.2 busB3 (fun _ => 0) mC2alias 0x3500 hr
    (by decide) (by decide)).2 (by decide) (by decide)
  exact ⟨(c9_wait_list_empty_amended.1 busB3 hr).2,
    (c9_wait_list_empty_amended.2 busB3 (fun _ => 0) mC2 0x3500 hr (by decide)
      (by decide)).1 (by decide), hali.1, hali.2⟩

def mZero : Machine where
  reg := fun _ => ⟨0, 0⟩
  mem := ⟨[], 0⟩

/-- Claim C10: when the read feeding a destination register fails — a
word-sized LOAD whose `Load16` errors, a SET whose immediate `Load16` errors,
or an RBUS whose `Recv` errors — the destination register is overwritten with
0 (the zero value returned alongside the error) rather than left unchanged,
and the error is returned.  (Destination register taken distinct from IP,
which the central advance would rewrite afterwards.) -/
theorem c10_dest_zeroed_on_error (bus : BusIface) (M : Machine) (inst : Nat) :
    (opcodeOf inst = 0 → inst &&& 0xF = 0 → arg1F inst ≠ 15 →
      M.mem.Load16 ((M.reg (arg2F inst)).Get16) 0 = .err →
      (M.execInst bus inst).M.reg (arg1F inst) = ⟨0, 0⟩ ∧
        (M.execInst bus inst).errored = true) ∧
    (opcodeOf inst = 2 → arg1F inst ≠ 15 →
      M.mem.Load16 ((M.reg 15).Get16) 1 = .err →
      (M.execInst bus inst).M.reg (arg1F inst) = ⟨0, 0⟩ ∧
        (M.execInst bus inst).errored = true) ∧
    (opcodeOf inst = 5 →
      ∀ e : Unit, bus.recv ((M.reg (arg1F inst)).High % 256) = .error e →
      ∀ hk : (M.reg (arg1F inst)).Low < 16, (M.reg (arg1F inst)).Low ≠ 15 →
      (M.execInst bus inst).M.reg ⟨(M.reg (arg1F inst)).Low, hk⟩ = ⟨0, 0⟩ ∧
        (M.execInst bus inst).errored = true) := by
  refine ⟨?_, ?_, ?_⟩
  · intro h0 ha3 h15 herr
    have hres : M.execInst bus inst =
        .ok ((M.setReg (arg1F inst) (Register.Put16 0)).advanceIP 2) true := by
      simp only [Machine.execInst, Machine.execSwitch, h0, ha3, herr]
      norm_num
    rw [hres]
    constructor
    · simp only [Exec.M]
      rw [Machine.advanceIP_reg_ne _ _ _ h15, Machine.setReg_same]
      rfl
    · rfl
  · intro h2 h15 herr
    have hres : M.execInst bus inst =
        .ok ((M.setReg (arg1F inst) (Register.Put16 0)).advanceIP 3) true := by
      simp only [Machine.execInst, Machine.execSwitch, h2, herr]
      norm_num
    rw [hres]
    constructor
    · simp only [Exec.M]
      rw [Machine.advanceIP_reg_ne _ _ _ h15, Machine.setReg_same]
      rfl
    · rfl
  · intro h5 e herr hk hk15
    have hkf : (⟨(M.reg (arg1F inst)).Low, hk⟩ : Fin 16) ≠ 15 := by
      intro hc
      exact hk15 (by rw [← fin15_val, ← hc])
    have hres : M.execInst bus inst =
        .ok ((M.setReg ⟨(M.reg (arg1F inst)).Low, hk⟩ (Register.Put16 0)).advanceIP 1) true := by
      simp only [Machine.execInst, Machine.execSwitch, h5, herr]
      norm_num [dif_pos hk]
    rw [hres]
    constructor
    · simp only [Exec.M]
      rw [Machine.advanceIP_reg_ne _ _ _ hkf, Machine.setReg_same]
      rfl
    · rfl

/-- Claim C10 witness: on the all-zero machine with empty memory (every
`Load16` errors) and a bus whose `Recv` errors, all three error paths leave 0
in the destination register and return the error: word LOAD 0x0100, SET
0x2100, RBUS 0x5100. -/
theorem c10_dest_zeroed_on_error_witness :
    ((mZero.execInst busNone 0x0100).M.reg (arg1F 0x0100) = ⟨0, 0⟩ ∧
      (mZero.execInst busNone 0x0100).errored = true) ∧
    ((mZero.execInst busNone 0x2100).M.reg (arg1F 0x2100) = ⟨0, 0⟩ ∧
      (mZero.execInst busNone 0x2100).errored = true) ∧
    ((mZero.execInst busNone 0x5100).M.reg
        ⟨(mZero.reg (arg1F 0x5100)).Low, by decide⟩ = ⟨0, 0⟩ ∧
      (mZero.execInst busNone 0x5100).errored = true) := by
  refine ⟨?_, ?_, ?_⟩
  · exact (c10_dest_zeroed_on_error busNone mZero 0x0100).1
      (by decide) (by decide) (by decide) (by decide)
  · exact (c10_dest_zeroed_on_error busNone mZero 0x2100).2.1
      (by decide) (by decide) (by decide)
  · exact (c10_dest_zeroed_on_error busNone mZero 0x5100).2.2
      (by decide) () rfl (by decide) (by decide)

/-- Claim C6: LJUMP (opcode 6) with `R[arg1] < R[arg2]`, and EJUMP (opcode 7)
with `R[arg1] == R[arg2]`, copy the entire two-byte register `R[arg3]` (both
bytes) into register 15 and contribute width 0, so IP is not advanced
further; on an untaken branch all registers other than IP are unchanged and
IP advances by 2.  (The byte-range hypotheses state the `uint8` typing of
`R[arg3]`'s fields.) -/
theorem c6_jump_semantics (bus : BusIface) (M : Machine) (inst : Nat)
    (hH : (M.reg (arg3F inst)).High < 256) (hL : (M.reg (arg3F inst)).Low < 256) :
    (opcodeOf inst = 6 →
      ((M.reg (arg1F inst)).Get16 < (M.reg (arg2F inst)).Get16 →
        (M.execInst bus inst).M.reg 15 = M.reg (arg3F inst) ∧
        ∀ i, i ≠ 15 → (M.execInst bus inst).M.reg i = M.reg i) ∧
      (¬(M.reg (arg1F inst)).Get16 < (M.reg (arg2F inst)).Get16 →
        (M.execInst bus inst).M.reg 15 = Register.Put16 ((M.reg 15).Get16 + 2) ∧
        ∀ i, i ≠ 15 → (M.execInst bus inst).M.reg i = M.reg i)) ∧
    (opcodeOf inst = 7 →
      ((M.reg (arg1F inst)).Get16 = (M.reg (arg2F inst)).Get16 →
        (M.execInst bus inst).M.reg 15 = M.reg (arg3F inst) ∧
        ∀ i, i ≠ 15 → (M.execInst bus inst).M.reg i = M.reg i) ∧
      (¬(M.reg (arg1F inst)).Get16 = (M.reg (arg2F inst)).Get16 →
        (M.execInst bus inst).M.reg 15 = Register.Put16 ((M.reg 15).Get16 + 2) ∧
        ∀ i, i ≠ 15 → (M.execInst bus inst).M.reg i = M.reg i)) := by
  have htaken : ∀ hres : M.execInst bus inst =
      .ok ((M.setReg 15 (M.reg (arg3F inst))).advanceIP 0) false,
      (M.execInst bus inst).M.reg 15 = M.reg (arg3F inst) ∧
      ∀ i, i ≠ 15 → (M.execInst bus inst).M.reg i = M.reg i := by
    intro hres
    rw [hres]
    constructor
    · simp only [Exec.M]
      rw [Machine.advanceIP_reg15, Machine.setReg_same, Nat.add_zero]
      exact Register.put16_get16 _ hH hL
    · intro i hi
      simp only [Exec.M]
      rw [Machine.advanceIP_reg_ne _ _ _ hi, Machine.setReg_ne _ _ _ _ hi]
  have huntaken : ∀ hres : M.execInst bus inst = .ok (M.advanceIP 2) false,
      (M.execInst bus inst).M.reg 15 = Register.Put16 ((M.reg 15).Get16 + 2) ∧
      ∀ i, i ≠ 15 → (M.execInst bus inst).M.reg i = M.reg i := by
    intro hres
    rw [hres]
    constructor
    · simp only [Exec.M]
      rw [Machine.advanceIP_reg15]
    · intro i hi
      simp only [Exec.M]
      rw [Machine.advanceIP_reg_ne _ _ _ hi]
  refine ⟨fun h6 => ⟨fun hc => ?_, fun hc => ?_⟩, fun h7 => ⟨fun hc => ?_, fun hc => ?_⟩⟩
  · refine htaken ?_
    simp only [Machine.execInst, Machine.execSwitch, h6]
    norm_num [if_pos hc]
  · refine huntaken ?_
    simp only [Machine.execInst, Machine.execSwitch, h6]
    norm_num [if_neg hc]
  · refine htaken ?_
    simp only [Machine.execInst, Machine.execSwitch, h7]
    norm_num [if_pos hc]
  · refine huntaken ?_
    simp only [Machine.execInst, Machine.execSwitch, h7]
    norm_num [if_neg hc]

def mC6 : Machine where
  reg := fun i =>
    if i = 1 then ⟨0x12, 0x34⟩ else if i = 2 then ⟨0x12, 0x34⟩
    else if i = 3 then ⟨0x00, 0xA0⟩ else if i = 15 then ⟨0x00, 0x20⟩ else ⟨0, 0⟩
  mem := ⟨[], 0⟩

/-- Claim C6 witness: the spec's jump-equality scenario — `R1 = R2 = 0x1234`,
`R3 = 0x00A0`, `EJUMP R1,R2,R3` (0x7123) at `IP = 0x0020` sets register 15 to
the whole of `R3`. -/
theorem c6_jump_semantics_witness :
    (mC6.execInst busNone 0x7123).M.reg 15 = mC6.reg (arg3F 0x7123) ∧
    (mC6.execInst busNone 0x7123).M.reg 1 = mC6.reg 1 := by
  have h := ((c6_jump_semantics busNone mC6 0x7123 (by decide) (by decide)).2
    (by decide)).1 (by decide)
  exact ⟨h.1, h.2 1 (by decide)⟩

/-- Claim C7: for every in-bounds base, offset and 16-bit word, `Save16` then
`Load16` at the same address returns the word, and the two stored bytes are
the high byte at `base+offset` and the low byte at `base+offset+1`
(big-endian). -/
theorem c7_save16_load16_roundtrip (m : Mem) (base offset w : Nat)
    (hwf : m.bankSize = m.bank.length) (hS : m.bankSize < 65536)
    (hin : base + offset + 1 < m.bankSize) (hw : w < 65536) :
    ∃ m2, m.Save16 base offset w = .ok m2 ∧
      m2.Load16 base offset = .ok w ∧
      m2.bank.getD (base + offset) 0 = w >>> 8 ∧
      m2.bank.getD (base + offset + 1) 0 = w &&& 0xFF := by
  have hmod1 : (base + offset) % 65536 = base + offset := Nat.mod_eq_of_lt (by omega)
  have hmod2 : (base + offset + 1) % 65536 = base + offset + 1 := Nat.mod_eq_of_lt (by omega)
  have hi : base + offset < m.bank.length := by omega
  have hj : base + offset + 1 < m.bank.length := by omega
  have hhi : (w >>> 8) % 256 = w >>> 8 := by
    rw [shr8_eq]
    exact Nat.mod_eq_of_lt (by omega)
  have hlo : (w &&& 0xFF) % 256 = w % 256 := by
    rw [and_255_eq]
    omega
  refine ⟨Mem.mk ((m.bank.set (base + offset) ((w >>> 8) % 256)).set (base + offset + 1) ((w &&& 0xFF) % 256)) m.bankSize, ?_, ?_, ?_, ?_⟩
  · simp only [Mem.Save16, hmod1, hmod2]
    rw [if_neg (by omega), if_pos hi, if_pos (by simpa using hj)]
  · simp only [Mem.Load16, hmod1, hmod2, List.length_set]
    rw [if_neg (by omega)]
    rw [dif_pos hi, dif_pos hj]
    simp only [List.get_eq_getElem]
    rw [List.getElem_set_self, List.getElem_set_ne (by omega), List.getElem_set_self]
    rw [hhi, hlo, Nat.mod_mod_of_dvd _ (by norm_num), shl8_or_eq _ _ (by omega), shr8_eq]
    congr 1
    omega
  · simp only [List.getD_eq_getElem?_getD]
    rw [List.getElem?_eq_getElem (by simpa using hi)]
    simp only [Option.getD_some]
    rw [List.getElem_set_ne (by omega), List.getElem_set_self]
    exact hhi
  · simp only [List.getD_eq_getElem?_getD]
    rw [List.getElem?_eq_getElem (by simpa using hj)]
    simp only [Option.getD_some]
    rw [List.getElem_set_self]
    simp only [and_255_eq]
    omega

/-- Claim C7 witness: the roundtrip at `S = 4`, `base = 1`, `offset = 0`,
word `0xBEEF`. -/
theorem c7_save16_load16_roundtrip_witness :
    ∃ m2, (Mem.newBanks 4).Save16 1 0 0xBEEF = .ok m2 ∧
      m2.Load16 1 0 = .ok 0xBEEF ∧
      m2.bank.getD 1 0 = 0xBEEF >>> 8 ∧
      m2.bank.getD 2 0 = 0xBEEF &&& 0xFF := by
  have h := c7_save16_load16_roundtrip (Mem.newBanks 4) 1 0 0xBEEF
    (by decide) (by decide) (by decide) (by decide)
  simpa using h

/-- Claim C8: ADD (8) and SUB (9) compute their results modulo `2^16`, SHL
(A) shifts by the full 16-bit value of `R[arg3]` with any shift `≥ 16`
yielding 0, and SHR (B) is a logical right shift, likewise 0 for shifts
`≥ 16`.  (Destination register taken distinct from IP, which the central
advance would rewrite afterwards.) -/
theorem c8_arith_mod_2_16 (bus : BusIface) (M : Machine) (inst : Nat)
    (h15 : arg1F inst ≠ 15) :
    (opcodeOf inst = 8 →
      ((M.execInst bus inst).M.reg (arg1F inst)).Get16 =
        ((M.reg (arg2F inst)).Get16 + (M.reg (arg3F inst)).Get16) % 65536) ∧
    (opcodeOf inst = 9 →
      (((M.execInst bus inst).M.reg (arg1F inst)).Get16 : Int) =
        (((M.reg (arg2F inst)).Get16 : Int) - ((M.reg (arg3F inst)).Get16 : Int)) % 65536) ∧
    (opcodeOf inst = 10 →
      ((M.execInst bus inst).M.reg (arg1F inst)).Get16 =
        ((M.reg (arg2F inst)).Get16 <<< (M.reg (arg3F inst)).Get16) % 65536 ∧
      (16 ≤ (M.reg (arg3F inst)).Get16 →
        ((M.execInst bus inst).M.reg (arg1F inst)).Get16 = 0)) ∧
    (opcodeOf inst = 11 →
      ((M.execInst bus inst).M.reg (arg1F inst)).Get16 =
        (M.reg (arg2F inst)).Get16 >>> (M.reg (arg3F inst)).Get16 ∧
      (16 ≤ (M.reg (arg3F inst)).Get16 →
        ((M.execInst bus inst).M.reg (arg1F inst)).Get16 = 0)) := by
  have hx := Register.get16_lt (M.reg (arg2F inst))
  have hy := Register.get16_lt (M.reg (arg3F inst))
  have hdest : ∀ d, (M.execInst bus inst).M =
      ((M.setReg (arg1F inst) (Register.Put16 d)).advanceIP 2) →
      ((M.execInst bus inst).M.reg (arg1F inst)).Get16 = d % 65536 := by
    intro d hd
    rw [hd, Machine.advanceIP_reg_ne _ _ _ h15, Machine.setReg_same, Register.get16_put16]
  refine ⟨fun h8 => ?_, fun h9 => ?_, fun hA => ?_, fun hB => ?_⟩
  · have hd := hdest (((M.reg (arg2F inst)).Get16 + (M.reg (arg3F inst)).Get16) % 65536) (by
      simp only [Machine.execInst, Machine.execSwitch, h8]
      norm_num [Exec.M])
    omega
  · have hd := hdest ((65536 + (M.reg (arg2F inst)).Get16 - (M.reg (arg3F inst)).Get16) % 65536) (by
      simp only [Machine.execInst, Machine.execSwitch, h9]
      norm_num [Exec.M])
    rw [hd]
    omega
  · have hd := hdest (((M.reg (arg2F inst)).Get16 <<< (M.reg (arg3F inst)).Get16) % 65536) (by
      simp only [Machine.execInst, Machine.execSwitch, hA]
      norm_num [Exec.M])
    refine ⟨by omega, fun hs => ?_⟩
    rw [hd]
    obtain ⟨k, hk⟩ : ∃ k, (M.reg (arg3F inst)).Get16 = 16 + k :=
      ⟨(M.reg (arg3F inst)).Get16 - 16, by omega⟩
    rw [hk, Nat.shiftLeft_eq, pow_add]
    have : (M.reg (arg2F inst)).Get16 * (2 ^ 16 * 2 ^ k) =
        ((M.reg (arg2F inst)).Get16 * 2 ^ k) * 65536 := by ring
    rw [this, Nat.mul_mod_left]
  · have hshr : (M.reg (arg2F inst)).Get16 >>> (M.reg (arg3F inst)).Get16 < 65536 := by
      rw [Nat.shiftRight_eq_div_pow]
      exact lt_of_le_of_lt (Nat.div_le_self _ _) hx
    have hd := hdest ((M.reg (arg2F inst)).Get16 >>> (M.reg (arg3F inst)).Get16) (by
      simp only [Machine.execInst, Machine.execSwitch, hB]
      norm_num [Exec.M])
    rw [Nat.mod_eq_of_lt hshr] at hd
    refine ⟨hd, fun hs => ?_⟩
    rw [hd, Nat.shiftRight_eq_div_pow]
    apply Nat.div_eq_of_lt
    calc (M.reg (arg2F inst)).Get16 < 65536 := hx
      _ = 2 ^ 16 := by norm_num
      _ ≤ 2 ^ (M.reg (arg3F inst)).Get16 := Nat.pow_le_pow_right (by norm_num) hs

def mC8 : Machine where
  reg := fun i => if i = 2 then ⟨0xFF, 0xFF⟩ else if i = 3 then ⟨0, 20⟩ else ⟨0, 0⟩
  mem := ⟨[], 0⟩

/-- Claim C8 witness: with `R2 = 0xFFFF` and `R3 = 20`, ADD 0x8123 yields
`(0xFFFF+20) mod 2^16 = 19`, SUB 0x9123 yields `0xFFFF-20 mod 2^16`, and both
shifts by 20 (≥ 16) yield 0. -/
theorem c8_arith_mod_2_16_witness :
    ((mC8.execInst busNone 0x8123).M.reg (arg1F 0x8123)).Get16 =
      ((mC8.reg (arg2F 0x8123)).Get16 + (mC8.reg (arg3F 0x8123)).Get16) % 65536 ∧
    (((mC8.execInst busNone 0x9123).M.reg (arg1F 0x9123)).Get16 : Int) =
      (((mC8.reg (arg2F 0x9123)).Get16 : Int) - ((mC8.reg (arg3F 0x9123)).Get16 : Int)) % 65536 ∧
    ((mC8.execInst busNone 0xA123).M.reg (arg1F 0xA123)).Get16 = 0 ∧
    ((mC8.execInst busNone 0xB123).M.reg (arg1F 0xB123)).Get16 = 0 := by
  refine ⟨?_, ?_, ?_, ?_⟩
  · exact (c8_arith_mod_2_16 busNone mC8 0x8123 (by decide)).1 (by decide)
  · exact (c8_arith_mod_2_16 busNone mC8 0x9123 (by decide)).2.1 (by decide)
  · exact ((c8_arith_mod_2_16 busNone mC8 0xA123 (by decide)).2.2.1 (by decide)).2 (by decide)
  · exact ((c8_arith_mod_2_16 busNone mC8 0xB123 (by decide)).2.2.2 (by decide)).2 (by decide)

def mC4 : Machine where
  reg := fun i => if i = 15 then ⟨0, 16⟩ else ⟨0, 0⟩
  mem := ⟨List.replicate 16 0, 16⟩

/-- Claim C4 counterexample: with `S = 16` and `IP = 16` the instruction fetch
itself errors; `execute` returns the error but IP is left exactly where it
was, so the same faulting fetch repeats forever — contradicting the claim
that IP always advances even on error, including fetch errors. -/
theorem c4_fetch_error_counterexample :
    (mC4.execute busNone).errored = true ∧
    (mC4.execute busNone).panicked = false ∧
    (mC4.execute busNone).M.reg 15 = ⟨0, 16⟩ := by decide

/-- The width each opcode's error paths leave in `width`: 3 for SET, 1 for
the bus family, 2 otherwise. -/
def defWidth (opcode : Nat) : Nat :=
  if opcode = 2 then 3 else if opcode = 3 ∨ opcode = 4 ∨ opcode = 5 then 1 else 2

/-- Claim C4 (amended): when an instruction's execution (after a successful
fetch) returns an error, the central advance still runs: the returned state
has `IP = Put16(IP' + w)` where `IP'` is the IP as the faulting case left it
and `w` is that instruction's width; but when the 16-bit fetch at IP itself
fails, `execute` returns the error immediately with the state unchanged — IP
is not advanced and the faulting fetch repeats. -/
theorem c4_ip_advance_amended (bus : BusIface) (M : Machine) :
    (M.mem.Load16 ((M.reg 15).Get16) 0 = .err → M.execute bus = .ok M true) ∧
    (∀ inst, (M.execSwitch bus inst).isPanic = false →
      (M.execSwitch bus inst).errFlag = true →
      (M.execSwitch bus inst).w = defWidth (opcodeOf inst) ∧
      (M.execInst bus inst).M.reg 15 =
        Register.Put16 ((((M.execSwitch bus inst).M).reg 15).Get16 +
          (M.execSwitch bus inst).w)) := by
  constructor
  · intro herr
    simp only [Machine.execute, herr]
  · intro inst h1 h2
    cases hsw : M.execSwitch bus inst with
    | panic M2 =>
      rw [hsw] at h1
      simp [SwitchRes.isPanic] at h1
    | cont M2 w e =>
      rw [hsw] at h2
      simp only [SwitchRes.errFlag] at h2
      subst h2
      refine ⟨?_, ?_⟩
      · simp only [SwitchRes.w]
        have hop : opcodeOf inst = 0 ∨
            opcodeOf inst = 1 ∨
            opcodeOf inst = 2 ∨
            opcodeOf inst = 3 ∨
            opcodeOf inst = 4 ∨
            opcodeOf inst = 5 ∨
            opcodeOf inst = 6 ∨
            opcodeOf inst = 7 ∨
            opcodeOf inst = 8 ∨
            opcodeOf inst = 9 ∨
            opcodeOf inst = 10 ∨
            opcodeOf inst = 11 ∨
            opcodeOf inst = 12 ∨
            opcodeOf inst = 13 ∨
            opcodeOf inst = 14 ∨
            opcodeOf inst = 15 ∨
            16 ≤ opcodeOf inst := by omega
        rcases hop with h|h|h|h|h|h|h|h|h|h|h|h|h|h|h|h|hbig
        · rw [h]
          norm_num [defWidth]
          simp only [Machine.execSwitch, h] at hsw
          all_goals try norm_num at hsw
          all_goals try (repeat' split at hsw)
          all_goals try simp at hsw
          all_goals try obtain ⟨-, hw2⟩ := hsw
          all_goals omega
        · rw [h]
          norm_num [defWidth]
          simp only [Machine.execSwitch, h] at hsw
          all_goals try norm_num at hsw
          all_goals try (repeat' split at hsw)
          all_goals try simp at hsw
          all_goals try obtain ⟨-, hw2⟩ := hsw
          all_goals omega
        · rw [h]
          norm_num [defWidth]
          simp only [Machine.execSwitch, h] at hsw
          all_goals try norm_num at hsw
          all_goals try (repeat' split at hsw)
          all_goals try simp at hsw
          all_goals try obtain ⟨-, hw2⟩ := hsw
          all_goals omega
        · rw [h]
          norm_num [defWidth]
          simp only [Machine.execSwitch, h] at hsw
          all_goals try norm_num at hsw
          all_goals try (repeat' split at hsw)
          all_goals try simp at hsw
          all_goals try obtain ⟨-, hw2⟩ := hsw
          all_goals omega
        · rw [h]
          norm_num [defWidth]
          simp only [Machine.execSwitch, h] at hsw
          all_goals try norm_num at hsw
          all_goals try (repeat' split at hsw)
          all_goals try simp at hsw
          all_goals try obtain ⟨-, hw2⟩ := hsw
          all_goals omega
        · rw [h]
          norm_num [defWidth]
          simp only [Machine.execSwitch, h] at hsw
          all_goals try norm_num at hsw
          all_goals try (repeat' split at hsw)
          all_goals try simp at hsw
          all_goals try obtain ⟨-, hw2⟩ := hsw
          all_goals omega
        · rw [h]
          norm_num [defWidth]
          simp only [Machine.execSwitch, h] at hsw
          all_goals try norm_num at hsw
          all_goals try (repeat' split at hsw)
          all_goals try simp at hsw
          all_goals try obtain ⟨-, hw2⟩ := hsw
          all_goals omega
        · rw [h]
          norm_num [defWidth]
          simp only [Machine.execSwitch, h] at hsw
          all_goals try norm_num at hsw
          all_goals try (repeat' split at hsw)
          all_goals try simp at hsw
          all_goals try obtain ⟨-, hw2⟩ := hsw
          all_goals omega
        · rw [h]
          norm_num [defWidth]
          simp only [Machine.execSwitch, h] at hsw
          all_goals try norm_num at hsw
          all_goals try (repeat' split at hsw)
          all_goals try simp at hsw
          all_goals try obtain ⟨-, hw2⟩ := hsw
          all_goals omega
        · rw [h]
          norm_num [defWidth]
          simp only [Machine.execSwitch, h] at hsw
          all_goals try norm_num at hsw
          all_goals try (repeat' split at hsw)
          all_goals try simp at hsw
          all_goals try obtain ⟨-, hw2⟩ := hsw
          all_goals omega
        · rw [h]
          norm_num [defWidth]
          simp only [Machine.execSwitch, h] at hsw
          all_goals try norm_num at hsw
          all_goals try (repeat' split at hsw)
          all_goals try simp at hsw
          all_goals try obtain ⟨-, hw2⟩ := hsw
          all_goals omega
        · rw [h]
          norm_num [defWidth]
          simp only [Machine.execSwitch, h] at hsw
          all_goals try norm_num at hsw
          all_goals try (repeat' split at hsw)
          all_goals try simp at hsw
          all_goals try obtain ⟨-, hw2⟩ := hsw
          all_goals omega
        · rw [h]
          norm_num [defWidth]
          simp only [Machine.execSwitch, h] at hsw
          all_goals try norm_num at hsw
          all_goals try (repeat' split at hsw)
          all_goals try simp at hsw
          all_goals try obtain ⟨-, hw2⟩ := hsw
          all_goals omega
        · rw [h]
          norm_num [defWidth]
          simp only [Machine.execSwitch, h] at hsw
          all_goals try norm_num at hsw
          all_goals try (repeat' split at hsw)
          all_goals try simp at hsw
          all_goals try obtain ⟨-, hw2⟩ := hsw
          all_goals omega
        · rw [h]
          norm_num [defWidth]
          simp only [Machine.execSwitch, h] at hsw
          all_goals try norm_num at hsw
          all_goals try (repeat' split at hsw)
          all_goals try simp at hsw
          all_goals try obtain ⟨-, hw2⟩ := hsw
          all_goals omega
        · rw [h]
          norm_num [defWidth]
          simp only [Machine.execSwitch, h] at hsw
          all_goals try norm_num at hsw
          all_goals try (repeat' split at hsw)
          all_goals try simp at hsw
          all_goals try obtain ⟨-, hw2⟩ := hsw
          all_goals omega
        · unfold Machine.execSwitch at hsw
          repeat rw [if_neg (by omega)] at hsw
          cases hsw
      · simp only [Machine.execInst, hsw, Exec.M, SwitchRes.w, SwitchRes.M]
        rw [Machine.advanceIP_reg15]

/-- Claim C4 witness: the fetch-error half at the concrete machine `mC4`
(state returned unchanged), and the post-fetch half at the all-zero machine
with the erroring word LOAD 0x0100 (width 2 and the IP advance ran). -/
theorem c4_ip_advance_amended_witness :
    mC4.execute busNone = .ok mC4 true ∧
    ((mZero.execSwitch busNone 0x0100).w = defWidth (opcodeOf 0x0100) ∧
      (mZero.execInst busNone 0x0100).M.reg 15 =
        Register.Put16 ((((mZero.execSwitch busNone 0x0100).M).reg 15).Get16 +
          (mZero.execSwitch busNone 0x0100).w)) := by
  refine ⟨?_, ?_⟩
  · exact (c4_ip_advance_amended busNone mC4).1 (by decide)
  · exact (c4_ip_advance_amended busNone mZero).2 0x0100 (by decide) (by decide)

/-- Claim C5 counterexample: the claim says `load(length)` is rejected with an
error.  On a boot image of one byte (`length = 1`), `load(1)` passes the
strict `>` guard and panics on `data[1]`; it does not return an error. -/
theorem c5_load_at_length_counterexample :
    (Bootmedia.init [0xDE] 0 0).length = 1 ∧
    (Bootmedia.init [0xDE] 0 0).Load 1 = .panic ∧
    ¬(Bootmedia.init [0xDE] 0 0).Load 1 = .err := by decide

/-- Claim C5 (amended): `load(index)` returns an error exactly when
`index > length`; every `index < length` returns the byte at that position
(so `length-1` is the last valid index); but `load(length)` itself passes the
guard and panics on the out-of-range slice index instead of being rejected
with an error. -/
theorem c5_bootmedia_load_amended (data : List Nat) (offset start idx : Nat)
    (hlen : data.length < 65536) :
    ((Bootmedia.init data offset start).Load idx = .err ↔
      (Bootmedia.init data offset start).length < idx) ∧
    (idx < (Bootmedia.init data offset start).length →
      (Bootmedia.init data offset start).Load idx = .ok (data.getD idx 0 % 256)) ∧
    (Bootmedia.init data offset start).Load data.length = .panic := by
  have hl : (Bootmedia.init data offset start).length = data.length :=
    Nat.mod_eq_of_lt hlen
  have hd : (Bootmedia.init data offset start).data = data := rfl
  refine ⟨?_, ?_, ?_⟩
  · unfold Bootmedia.Load
    rw [hl, hd]
    split_ifs with h h2
    · simpa using h
    · simp only [reduceCtorEq, false_iff]
      omega
    · simp only [reduceCtorEq, false_iff]
      omega
  · intro h
    rw [hl] at h
    unfold Bootmedia.Load
    rw [hl, hd]
    rw [if_neg (by omega)]
    rw [dif_pos h]
    rw [List.getD_eq_getElem _ _ h]
    simp [List.get_eq_getElem]
  · unfold Bootmedia.Load
    rw [hl, hd]
    rw [if_neg (by omega)]
    rw [dif_neg (by omega)]

/-- Claim C5 witness: the amended statement evaluated on the two-byte image
`[3, 7]`. -/
theorem c5_bootmedia_load_amended_witness :
    (((Bootmedia.init [3, 7] 5 9).Load 1 = .err ↔
      (Bootmedia.init [3, 7] 5 9).length < 1) ∧
    (1 < (Bootmedia.init [3, 7] 5 9).length →
      (Bootmedia.init [3, 7] 5 9).Load 1 = .ok ([3, 7].getD 1 0 % 256)) ∧
    (Bootmedia.init [3, 7] 5 9).Load [3, 7].length = .panic) :=
  c5_bootmedia_load_amended [3, 7] 5 9 1 (by decide)
